import Mathlib

/-!
Verification of the service/operation extraction core of the
apihero-openapi-generator repository (src/parse/services/v3_1.ts).

The TypeScript source is shallowly embedded: each exported function of
v3_1.ts becomes a Lean definition of the same name, JavaScript strings are
Lean String/List Char, JS null/undefined is Option, and JS truthiness is
made explicit through small helper functions.  The collaborator subsystems
that are outside this repository slice (getRef from parse/common/v3_1,
getModel/getModelDefault/getPattern/getType from parse/models/v3_1, and the
npm camelcase package) are abstracted: the document carries the resolver
functions as fields, and camelCase is modelled from the spec.

Numeric/string/array constraint fields that the source merely copies from
the resolved model (format, maximum, exclusiveMaximum, minimum,
exclusiveMinimum, multipleOf, maxLength, minLength, maxItems, minItems,
uniqueItems, maxProperties, minProperties, pattern) are not modelled: no
claim refers to them, and the source only ever copies them verbatim from
the model descriptor into the output record.
-/

namespace ApiHero

/-! ## JavaScript-semantics helpers -/

/-- Truthiness of a JS value of type string-or-nullish: null/undefined and
the empty string are falsy, every other string truthy. -/
def jsTruthyStr (o : Option String) : Bool :=
  match o with
  | some s => s != ""
  | none => false

/-- Models the JS idiom differently written as a disjunction with null,
as in the source's `x.description || null`: an empty string collapses to
null. -/
def jsOrNull (o : Option String) : Option String :=
  match o with
  | some s => if s = "" then none else some s
  | none => none

/-- Character class of the regex [0-9]. -/
def isAsciiDigit (c : Char) : Bool :=
  48 ≤ c.toNat && c.toNat ≤ 57

/-- Character class of the regex [A-Z]. -/
def isAsciiUpper (c : Char) : Bool :=
  65 ≤ c.toNat && c.toNat ≤ 90

/-- Character class of the regex [a-z]. -/
def isAsciiLower (c : Char) : Bool :=
  97 ≤ c.toNat && c.toNat ≤ 122

/-- Character class of the regex [a-zA-Z]. -/
def isAsciiLetter (c : Char) : Bool :=
  isAsciiUpper c || isAsciiLower c

/-- Letters and digits, the characters an identifier is expected to be
made of. -/
def isAsciiAlnum (c : Char) : Bool :=
  isAsciiLetter c || isAsciiDigit c

/-- Character class of the regex \w, i.e. [A-Za-z0-9_]. -/
def isWordChar (c : Char) : Bool :=
  isAsciiAlnum c || c = '_'

/-- Character class of the regex [\w-]. -/
def isWordOrDash (c : Char) : Bool :=
  isWordChar c || c = '-'

/-- ASCII lower-casing of one character, as the camel-case conversion
applies it.  Non-letters are untouched. -/
def asciiLowerChar (c : Char) : Char :=
  if isAsciiUpper c then Char.ofNat (c.toNat + 32) else c

/-- ASCII upper-casing of one character. -/
def asciiUpperChar (c : Char) : Char :=
  if isAsciiLower c then Char.ofNat (c.toNat - 32) else c

/-- JS String.prototype.trim on a character list (whitespace at both
ends removed; the inputs this model meets contain no exotic Unicode
whitespace, so Char.isWhitespace is an adequate class). -/
def jsTrimChars (l : List Char) : List Char :=
  ((l.dropWhile Char.isWhitespace).reverse.dropWhile Char.isWhitespace).reverse

/-- JS String.prototype.split with a single-character separator:
"a;b".split(";") = ["a","b"], "".split("/") = [""]. -/
def splitOnChar (sep : Char) : List Char → List (List Char)
  | [] => [[]]
  | c :: rest =>
    if c = sep then
      [] :: splitOnChar sep rest
    else
      match splitOnChar sep rest with
      | [] => [[c]]
      | w :: ws => (c :: w) :: ws

/-- Does the first list occur as a prefix of the second? -/
def matchesAtStart : List Char → List Char → Bool
  | [], _ => true
  | _ :: _, [] => false
  | p :: ps, c :: cs => p = c && matchesAtStart ps cs

/-- First index at which a pattern occurs as a substring, if any. -/
def findSubstringIdx (pat : List Char) : List Char → Option Nat
  | [] => if pat = [] then some 0 else none
  | c :: cs =>
    if matchesAtStart pat (c :: cs) then some 0
    else (findSubstringIdx pat cs).map (· + 1)

/-- A stable insertion used to model Array.prototype.sort: the element is
placed before the first element that compares strictly greater
(comparator returns a negative number), hence after every element that
compares equal - the placement a stable sort gives when elements are fed
in declaration order. -/
def insertStable (cmp : α → α → Int) (x : α) : List α → List α
  | [] => [x]
  | y :: ys => if cmp x y < 0 then x :: y :: ys else y :: insertStable cmp x ys

/-- Model of Array.prototype.sort(cmp).  ECMAScript 2019 requires sort to
be stable; for the comparators the source uses (total preorders) the
left-to-right stable insertion below produces exactly the stable sort. -/
def jsSort (cmp : α → α → Int) (l : List α) : List α :=
  l.foldl (fun acc x => insertStable cmp x acc) []

/-! ## The Model type descriptor (from src/@types usage in v3_1.ts)

Only the four fields the source's structural-equality helper areEqual
reads are needed for a recursive type descriptor: type, base, template
and the optional link to an element/value model. -/

inductive Model where
  | mk (type : String) (base : String) (template : Option String) (link : Option Model)

def Model.type : Model → String
  | .mk t _ _ _ => t

def Model.base : Model → String
  | .mk _ b _ _ => b

def Model.template : Model → Option String
  | .mk _ _ t _ => t

def Model.link : Model → Option Model
  | .mk _ _ _ l => l

def Model.decEqAux : (a b : Model) → Decidable (a = b)
  | .mk t1 b1 tp1 l1, .mk t2 b2 tp2 l2 =>
    have dl : Decidable (l1 = l2) :=
      match l1, l2 with
      | none, none => isTrue rfl
      | some _, none => isFalse (by simp)
      | none, some _ => isFalse (by simp)
      | some x, some y =>
        match Model.decEqAux x y with
        | isTrue h => isTrue (by rw [h])
        | isFalse h => isFalse (by simpa using h)
    match decEq t1 t2, decEq b1 b2, decEq tp1 tp2, dl with
    | isTrue h1, isTrue h2, isTrue h3, isTrue h4 => isTrue (by rw [h1, h2, h3, h4])
    | isFalse h1, _, _, _ => isFalse (by simp [h1])
    | _, isFalse h2, _, _ => isFalse (by simp [h2])
    | _, _, isFalse h3, _ => isFalse (by simp [h3])
    | _, _, _, isFalse h4 => isFalse (by simp [h4])

instance : DecidableEq Model := Model.decEqAux

/-- Lines 170-176: recursive structural equality of two type descriptors.
Top-level type/base/template are compared; when both sides carry a link
(JS truthiness: a present object) the comparison recurses through it,
otherwise the top-level verdict stands. -/
def areEqual : Model → Model → Bool
  | .mk t1 b1 tp1 l1, .mk t2 b2 tp2 l2 =>
    let equal := t1 == t2 && b1 == b2 && tp1 == tp2
    match l1, l2 with
    | some a, some b => if equal then areEqual a b else equal
    | _, _ => equal

/-! ## Output data model (field sets read off the literals in v3_1.ts) -/

structure OperationError where
  code : Nat
  description : String
deriving DecidableEq

/-- One documented response (object literal of lines 255-273; the
synthetic literal of lines 192-210 has the same shape).  enum, enums and
properties are carried opaquely: the source only copies them from the
model descriptor and no claim inspects them. -/
structure OperationResponse where
  in_ : String
  name : String
  code : Nat
  description : Option String
  export_ : String
  type : String
  base : String
  template : Option String
  link : Option Model
  isDefinition : Bool
  isReadOnly : Bool
  isRequired : Bool
  isNullable : Bool
  imports : List String
  enum : List String
  enums : List String
  properties : List String
deriving DecidableEq

/-- One operation input (object literal of lines 364-384 and 682-702).
default is an opaque carrier: the sort comparator only asks whether it is
undefined. -/
structure OperationParameter where
  in_ : String
  prop : String
  export_ : String
  name : String
  type : String
  base : String
  template : Option String
  link : Option Model
  description : Option String
  deprecated : Option Bool
  default : Option String
  isDefinition : Bool
  isReadOnly : Bool
  isRequired : Bool
  isNullable : Bool
  imports : List String
  enum : List String
  enums : List String
  properties : List String
  mediaType : Option String
deriving DecidableEq

/-- The classification record of lines 617-626. -/
structure OperationParameters where
  imports : List String
  parameters : List OperationParameter
  parametersPath : List OperationParameter
  parametersQuery : List OperationParameter
  parametersForm : List OperationParameter
  parametersCookie : List OperationParameter
  parametersHeader : List OperationParameter
  parametersBody : Option OperationParameter
deriving DecidableEq

structure Operation where
  id : String
  name : String
  summary : Option String
  description : Option String
  deprecated : Bool
  method : String
  path : String
  parameters : List OperationParameter
  parametersPath : List OperationParameter
  parametersQuery : List OperationParameter
  parametersForm : List OperationParameter
  parametersHeader : List OperationParameter
  parametersCookie : List OperationParameter
  parametersBody : Option OperationParameter
  imports : List String
  errors : List OperationError
  results : List OperationResponse
  responseHeader : Option String
deriving DecidableEq

structure Service where
  name : String
  description : Option String
  operations : List Operation
  imports : List String
deriving DecidableEq

/-- View of the fields areEqual reads when the source passes an
OperationResponse where a Model is expected (TypeScript structural
typing). -/
def OperationResponse.toModel (r : OperationResponse) : Model :=
  .mk r.type r.base r.template r.link

/-! ## Response classification (lines 141-248) -/

/-- Lines 141-147: the sort comparator placing parameters that are
required and have no default before all others. -/
def sortByRequired (a b : OperationParameter) : Int :=
  let aNeedsValue := a.isRequired && a.default.isNone
  let bNeedsValue := b.isRequired && b.default.isNone
  if aNeedsValue && !bNeedsValue then -1
  else if bNeedsValue && !aNeedsValue then 1
  else 0

/-- Lines 149-157: name of the first response descriptor surfaced as a
header, if any. -/
def getOperationResponseHeader (operationResponses : List OperationResponse) : Option String :=
  match operationResponses.find? (fun operationResponse => operationResponse.in_ == "header") with
  | some header => some header.name
  | none => none

/-- Lines 159-168: responses with code at least 300 and a truthy
description, mapped to code/description pairs. -/
def getOperationErrors (operationResponses : List OperationResponse) : List OperationError :=
  (operationResponses.filter (fun operationResponse =>
      decide (300 ≤ operationResponse.code) && jsTruthyStr operationResponse.description)).map
    (fun response => { code := response.code, description := response.description.getD "" })

/-- The success-result condition of line 186: a truthy code that is not
204 and lies in [200, 300). -/
def isSuccessResult (code : Nat) : Bool :=
  decide (code ≠ 0) && decide (code ≠ 204) && decide (200 ≤ code) && decide (code < 300)

/-- The synthetic void/200 placeholder pushed at lines 192-210 when no
success response survives the filter. -/
def syntheticVoidResponse : OperationResponse :=
  { in_ := "response"
    name := ""
    code := 200
    description := some ""
    export_ := "generic"
    type := "void"
    base := "void"
    template := none
    link := none
    isDefinition := false
    isReadOnly := false
    isRequired := false
    isNullable := false
    imports := []
    enum := []
    enums := []
    properties := [] }

/-- The filter/findIndex idiom of lines 213-219: an element survives
exactly when the first areEqual-match of it in the list is the element
itself. -/
def dedupResults (operationResults : List OperationResponse) : List OperationResponse :=
  (operationResults.enum.filter (fun p =>
      operationResults.findIdx? (fun item => areEqual item.toModel p.2.toModel) == some p.1)).map
    (fun p => p.2)

/-- Lines 178-220: keep the 2xx responses other than 204, substitute the
synthetic void/200 placeholder when none remain, and deduplicate by
structural equality. -/
def getOperationResults (operationResponses : List OperationResponse) : List OperationResponse :=
  let operationResults :=
    operationResponses.filter (fun operationResponse => isSuccessResult operationResponse.code)
  let operationResults :=
    if operationResults.isEmpty then [syntheticVoidResponse] else operationResults
  dedupResults operationResults

/-! ## Input document model (openapi-types shapes, restricted to the
fields v3_1.ts reads) -/

/-- A schema fragment: either a reference (a $ref pointer) or an inline
fragment, whose content is opaque to this core (the Model Resolver
collaborator interprets it).  The id field only serves to distinguish
distinct inline fragments. -/
structure Schema where
  ref : Option String
  id : Nat
deriving DecidableEq

structure MediaTypeObject where
  schema : Option Schema
deriving DecidableEq

/-- A response object; headers is the ordered list of declared header
names (only the keys are read by the source, lines 327-338). -/
structure ResponseObject where
  description : Option String
  content : Option (List (String × MediaTypeObject))
  headers : Option (List String)
deriving DecidableEq

structure RequestBodyObject where
  description : Option String
  required : Option Bool
  content : Option (List (String × MediaTypeObject))
deriving DecidableEq

structure ParameterObject where
  name : String
  in_ : String
  description : Option String
  required : Option Bool
  deprecated : Option Bool
  schema : Option Schema
  ref : Option String
deriving DecidableEq

structure OperationObject where
  operationId : Option String
  summary : Option String
  description : Option String
  deprecated : Option Bool
  tags : Option (List String)
  parameters : Option (List ParameterObject)
  requestBody : Option RequestBodyObject
  responses : Option (List (String × ResponseObject))
deriving DecidableEq

structure PathItem where
  parameters : Option (List ParameterObject)
  get : Option OperationObject
  post : Option OperationObject
  put : Option OperationObject
  delete : Option OperationObject
  patch : Option OperationObject
  options : Option OperationObject
  head : Option OperationObject
deriving DecidableEq

structure TagObject where
  name : String
  description : Option String
deriving DecidableEq

/-- The model descriptor produced by the excluded Model Resolver
collaborator (getModel / getType of parse/models/v3_1): the fields
v3_1.ts copies forward.  Constraint fields are elided as explained in the
header comment. -/
structure ModelDescriptor where
  export_ : String
  type : String
  base : String
  template : Option String
  link : Option Model
  isReadOnly : Bool
  isRequired : Bool
  isNullable : Bool
  default : Option String
  imports : List String
  enum : List String
  enums : List String
  properties : List String
deriving DecidableEq

/-- The in-memory document together with the collaborator interfaces the
extraction consumes (spec section 6): one-level dereferencing per object
kind, full model resolution for inline schemas, and reference-typed
resolution for $ref strings. -/
structure OpenAPIDocument where
  tags : Option (List TagObject)
  paths : Option (List (String × Option PathItem))
  getRefParameter : ParameterObject → ParameterObject
  getRefResponse : ResponseObject → ResponseObject
  getRefRequestBody : RequestBodyObject → RequestBodyObject
  getRefSchema : Schema → Schema
  getModel : String → Schema → ModelDescriptor
  getType : String → ModelDescriptor
  getModelDefault : Schema → Option String

/-! ## Content negotiation (lines 442-483) -/

structure Content where
  mediaType : String
  schema : Schema
deriving DecidableEq

/-- Lines 447-457: the fixed priority allow-list of body media types. -/
def BASIC_MEDIA_TYPES : List String :=
  [ "application/json-patch+json"
  , "application/json"
  , "application/x-www-form-urlencoded"
  , "text/json"
  , "text/plain"
  , "multipart/form-data"
  , "multipart/mixed"
  , "multipart/related"
  , "multipart/batch" ]

/-- The media type with any ;-delimited parameter suffix removed and
trimmed, as in mediaType.split(";")[0].trim() of line 462. -/
def cleanMediaType (mediaType : String) : String :=
  ⟨jsTrimChars ((splitOnChar ';' mediaType.data).headD mediaType.data)⟩

/-- JS object property lookup content[m] on the entries list. -/
def jsGet (content : List (String × MediaTypeObject)) (m : String) : Option MediaTypeObject :=
  (content.find? (fun e => e.1 == m)).map (fun e => e.2)

/-- Lines 459-483: among the declared media types (declaration order),
first the allow-listed ones are filtered and the first with a defined
schema is taken; failing that, the first declared media type of any kind
with a defined schema; failing that, null.  isDefined of line 787 is
isSome here: in the openapi-types shapes a schema slot is an object or
absent, never the empty string. -/
def getContent (content : List (String × MediaTypeObject)) : Option Content :=
  let keys := content.map (fun e => e.1)
  let schemaOf := fun m => (jsGet content m).bind (fun mt => mt.schema)
  let basicMediaTypeWithSchema :=
    (keys.filter (fun mediaType => BASIC_MEDIA_TYPES.contains (cleanMediaType mediaType))).find?
      (fun mediaType => (schemaOf mediaType).isSome)
  match basicMediaTypeWithSchema with
  | some mediaType => (schemaOf mediaType).map (fun s => { mediaType := mediaType, schema := s })
  | none =>
    match keys.find? (fun mediaType => (schemaOf mediaType).isSome) with
    | some mediaType => (schemaOf mediaType).map (fun s => { mediaType := mediaType, schema := s })
    | none => none

/-! ## Response-code parsing (lines 343-358) -/

/-- JS parseInt with no radix argument: leading whitespace skipped, an
optional sign, a 0x/0X prefix switching to hexadecimal, then the longest
prefix of digits of the radix; none models NaN.  (JS numbers lose
precision beyond 2^53; the Nat model is exact, which can only differ on
absurdly long digit strings.) -/
def jsParseInt (s : String) : Option Int :=
  let l := s.data.dropWhile Char.isWhitespace
  let (sign, l1) : Int × List Char :=
    match l with
    | '-' :: rest => (-1, rest)
    | '+' :: rest => (1, rest)
    | _ => (1, l)
  let (radix, l2) : Nat × List Char :=
    match l1 with
    | '0' :: 'x' :: rest => (16, rest)
    | '0' :: 'X' :: rest => (16, rest)
    | _ => (10, l1)
  let isRadixDigit := fun (c : Char) =>
    if radix = 16 then
      isAsciiDigit c || (97 ≤ (asciiLowerChar c).toNat && (asciiLowerChar c).toNat ≤ 102)
    else isAsciiDigit c
  let digitVal := fun (c : Char) =>
    if isAsciiDigit c then c.toNat - 48 else (asciiLowerChar c).toNat - 87
  let digits := l2.takeWhile isRadixDigit
  if digits.isEmpty then none
  else some (sign * Int.ofNat (digits.foldl (fun acc c => acc * radix + digitVal c) 0))

/-- Lines 343-358: "default" is treated as HTTP 200; otherwise, when the
key contains at least one decimal digit (the un-anchored regex test
/[0-9]+/) and parseInt yields an integer, its absolute value is the
code; otherwise null. -/
def getOperationResponseCode (value : String) : Option Nat :=
  if value = "default" then some 200
  else if value.data.any isAsciiDigit then
    match jsParseInt value with
    | some code => some code.natAbs
    | none => none
  else none

/-! ## Building one response descriptor (lines 250-341) -/

/-- Lines 250-341.  The default descriptor is generic/any; a selected
content schema takes precedence (a reference short-circuits to a
reference-typed descriptor, an inline schema is fully resolved); with no
usable content, the first declared header becomes the return surface,
typed string; with neither, the generic descriptor stands. -/
def getOperationResponse (openApi : OpenAPIDocument) (response : ResponseObject)
    (responseCode : Nat) : OperationResponse :=
  let operationResponse : OperationResponse :=
    { in_ := "response"
      name := ""
      code := responseCode
      description := jsOrNull response.description
      export_ := "generic"
      type := "any"
      base := "any"
      template := none
      link := none
      isDefinition := false
      isReadOnly := false
      isRequired := false
      isNullable := false
      imports := []
      enum := []
      enums := []
      properties := [] }
  let headersFallback :=
    match response.headers with
    | some (name :: _) =>
      { operationResponse with in_ := "header", name := name, type := "string", base := "string" }
    | _ => operationResponse
  match response.content with
  | none => headersFallback
  | some contentMap =>
    match getContent contentMap with
    | none => headersFallback
    | some content =>
      let schema :=
        if matchesAtStart "#/components/responses/".data (content.schema.ref.getD "").data then
          openApi.getRefSchema content.schema
        else content.schema
      if jsTruthyStr schema.ref then
        let model := openApi.getType (schema.ref.getD "")
        { operationResponse with
            export_ := "reference"
            type := model.type
            base := model.base
            template := model.template
            imports := operationResponse.imports ++ model.imports }
      else
        let model := openApi.getModel "" schema
        { operationResponse with
            export_ := model.export_
            type := model.type
            base := model.base
            template := model.template
            link := model.link
            isReadOnly := model.isReadOnly
            isRequired := model.isRequired
            isNullable := model.isNullable
            imports := operationResponse.imports ++ model.imports
            enum := operationResponse.enum ++ model.enum
            enums := operationResponse.enums ++ model.enums
            properties := operationResponse.properties ++ model.properties }

/-- Lines 222-248: each response entry is dereferenced, its key parsed;
entries with an unparseable key - or one parsing to the falsy 0 - are
dropped silently; the survivors are sorted ascending by code (stable, so
2xx precede the error codes with declaration order preserved among
ties). -/
def getOperationResponses (openApi : OpenAPIDocument)
    (responses : List (String × ResponseObject)) : List OperationResponse :=
  let operationResponses :=
    responses.filterMap (fun e =>
      let response := openApi.getRefResponse e.2
      match getOperationResponseCode e.1 with
      | some responseCode =>
        if responseCode = 0 then none
        else some (getOperationResponse openApi response responseCode)
      | none => none)
  jsSort (fun a b => if a.code < b.code then -1 else if b.code < a.code then 1 else 0)
    operationResponses

/-! ## Identifier sanitization (lines 485-611 and 768-781) -/

/-- The regex replace(/^[a-zA-Z]-complement+/, "") of lines 497 and 777:
the leading run of non-letters is removed (anchored, so the global flag
changes nothing). -/
def stripLeadingNonLetters (l : List Char) : List Char :=
  l.dropWhile (fun c => !isAsciiLetter c)

/-- The regex replace of lines 498 and 778: every maximal run of
characters outside [\w-] collapses to a single dash.  The flag tracks
whether the previous character was part of a run already replaced. -/
def replaceNonWordRunsAux (prevReplaced : Bool) : List Char → List Char
  | [] => []
  | c :: rest =>
    if isWordOrDash c then c :: replaceNonWordRunsAux false rest
    else if prevReplaced then replaceNonWordRunsAux true rest
    else '-' :: replaceNonWordRunsAux true rest

/-- The shared cleaning chain of lines 496-500 and 776-779: strip the
leading non-letters, collapse non-word runs to dashes, trim. -/
def sanitizeIdentifier (value : String) : String :=
  ⟨jsTrimChars (replaceNonWordRunsAux false (stripLeadingNonLetters value.data))⟩

/-- The separator characters the camel-case conversion removes (the
camelcase npm package treats dash, underscore, dot and space as word
boundaries). -/
def isSeparatorChar (c : Char) : Bool :=
  c = '-' || c = '_' || c = '.' || c = ' '

/-- Splits a character list into its separator-free words, dropping empty
segments; cur accumulates the current word reversed. -/
def splitWordsAux (cur : List Char) : List Char → List (List Char)
  | [] => if cur.isEmpty then [] else [cur.reverse]
  | c :: rest =>
    if isSeparatorChar c then
      if cur.isEmpty then splitWordsAux [] rest
      else cur.reverse :: splitWordsAux [] rest
    else splitWordsAux (c :: cur) rest

def capitalizeWord : List Char → List Char
  | [] => []
  | c :: cs => asciiUpperChar c :: cs.map asciiLowerChar

/-- An existing camel hump (a lower-case letter or digit immediately
followed by an upper-case letter) also acts as a segment boundary, so
that filter.someProperty becomes filterSomeProperty as the source's doc
comment of lines 771-774 documents; a dash is inserted there before
splitting. -/
def markCamelHumps (prev : Option Char) : List Char → List Char
  | [] => []
  | c :: rest =>
    let boundary :=
      match prev with
      | some p => (isAsciiLower p || isAsciiDigit p) && isAsciiUpper c
      | none => false
    if boundary then '-' :: c :: markCamelHumps (some c) rest
    else c :: markCamelHumps (some c) rest

/-- Modelled from the spec: the camel-case conversion performed by the
external camelcase package (a dependency, not part of this repository
slice).  Per spec section 4.1 the raw string is split at separator
boundaries (dash, underscore, dot, space, and existing camel humps), the
first segment is lower-cased, and every subsequent segment is capitalized
with the boundary removed. -/
def camelCase (s : String) : String :=
  match splitWordsAux [] (markCamelHumps none s.data) with
  | [] => ""
  | w :: ws => ⟨w.map asciiLowerChar ++ (ws.map capitalizeWord).flatten⟩

/-- The alternatives of the anchored reserved-word regex of lines
768-769, used for parameter names. -/
def parameterReservedWords : List String :=
  [ "arguments", "break", "case", "catch", "class", "const", "continue", "debugger"
  , "default", "delete", "do", "else", "enum", "eval", "export", "extends", "false"
  , "finally", "for", "function", "if", "implements", "import", "in", "instanceof"
  , "interface", "let", "new", "null", "package", "private", "protected", "public"
  , "return", "static", "super", "switch", "this", "throw", "true", "try", "typeof"
  , "var", "void", "while", "with", "yield" ]

/-- Lines 775-781: clean and camel-case the raw parameter name, then
prefix an underscore when the result exactly matches a reserved word
(the regex replace(/^(...)$/, "_$1")). -/
def getOperationParameterName (value : String) : String :=
  let result := camelCase (sanitizeIdentifier value)
  if parameterReservedWords.contains result then "_" ++ result else result

/-- Lines 526-606: the reserved-word list used for operation names,
duplicates included as declared. -/
def javascriptReservedWords : List String :=
  [ "break", "case", "catch", "class", "const", "continue", "debugger", "default"
  , "delete", "do", "else", "export", "extends", "false", "finally", "for"
  , "function", "if", "import", "in", "instanceof", "new", "null", "return"
  , "super", "switch", "this", "throw", "true", "try", "typeof", "var", "void"
  , "while", "with", "yield", "let", "await", "enum", "implements", "interface"
  , "package", "private", "protected", "public", "static", "abstract", "boolean"
  , "byte", "char", "double", "final", "float", "goto", "int", "long", "native"
  , "short", "synchronized", "throws", "transient", "volatile", "arguments"
  , "async", "eval", "get", "set", "null", "true", "false", "any", "boolean"
  , "constructor", "declare", "module", "require", "number", "string", "of" ]

/-- Lines 609-611. -/
def isReservedWord (value : String) : Bool :=
  javascriptReservedWords.contains value

/-- The literal the version-segment regex of line 519 looks for. -/
def apiVersionLit : List Char := "{api-version}".data

/-- First index of an occurrence of the api-version literal that the
regex of line 519 can complete into a match: one followed (after its 13
characters) by a slash with no newline before it, since the lazy dot of
the pattern cannot cross a newline. -/
def findCompletableApiVersion : Nat → List Char → Option Nat
  | 0, _ => none
  | fuel + 1, l =>
    match findSubstringIdx apiVersionLit l with
    | none => none
    | some q =>
      let tailAfter := l.drop (q + 13)
      let beforeSlash := tailAfter.takeWhile (fun c => c != '/')
      if tailAfter.contains '/' && !(beforeSlash.contains '\n') then some q
      else (findCompletableApiVersion fuel (l.drop (q + 1))).map (fun i => i + q + 1)

/-- The global regex replace of line 519, removing every path segment
that contains an {api-version} placeholder together with everything up to
and including the following slash.  A match starts at the beginning of
the run of non-slash characters containing the first completable literal
occurrence and ends at the first following slash; scanning resumes after
the removed region. -/
def stripApiVersionAux : Nat → List Char → List Char
  | 0, l => l
  | fuel + 1, l =>
    match findCompletableApiVersion (l.length + 1) l with
    | none => l
    | some q =>
      let beforeSlash := (l.drop (q + 13)).takeWhile (fun c => c != '/')
      let segStart := q - ((l.take q).reverse.takeWhile (fun c => c != '/')).length
      let r := q + 13 + beforeSlash.length
      l.take segStart ++ stripApiVersionAux fuel (l.drop (r + 1))

/-- The global regex replace of line 520: each {...} placeholder is
removed, lazily up to the first closing brace, which (like the lazy dot)
must appear before any newline; an unclosed brace stays. -/
def removeBracesAux : Nat → List Char → List Char
  | 0, l => l
  | _ + 1, [] => []
  | fuel + 1, c :: rest =>
    if c = '{' then
      let inside := rest.takeWhile (fun d => d != '}')
      if rest.contains '}' && !(inside.contains '\n') then
        removeBracesAux fuel (rest.drop (inside.length + 1))
      else c :: removeBracesAux fuel rest
    else c :: removeBracesAux fuel rest

/-- The replace(/\//g, "-") of line 521. -/
def dashSlashes (l : List Char) : List Char :=
  l.map (fun c => if c = '/' then '-' else c)

/-- Lines 485-524: the operation name.  With a truthy declared
operationId, its final slash-delimited segment is cleaned and
camel-cased; a reserved-word collision is disambiguated with the leading
segment (when one exists) or the HTTP method.  Without one, the name is
synthesized from the method and the URL with version segments and
placeholders removed. -/
def getOperationName (url method : String) (operationId : Option String) : String :=
  if jsTruthyStr operationId then
    let opId := operationId.getD ""
    let operationIdSplit := (splitOnChar '/' opId.data).map (fun w => (⟨w⟩ : String))
    let name := if operationIdSplit.length > 1 then (operationIdSplit.getLast?).getD "" else opId
    let result := camelCase (sanitizeIdentifier name)
    if isReservedWord result then
      if operationIdSplit.length > 1 then
        camelCase (result ++ "-" ++ (operationIdSplit.head?).getD "")
      else
        camelCase (method ++ "-" ++ result)
    else result
  else
    let urlWithoutPlaceholders : String :=
      ⟨dashSlashes (removeBracesAux (url.data.length + 1)
        (stripApiVersionAux url.data.length url.data))⟩
    camelCase (method ++ "-" ++ urlWithoutPlaceholders)

/-- Lines 133-139. -/
def getOperationId (url method : String) (operationId : Option String) : String :=
  if jsTruthyStr operationId then operationId.getD "" else method ++ ":" ++ url

/-- JS String.prototype.toUpperCase, restricted to ASCII (the only
strings it is applied to are the fixed HTTP method names). -/
def jsToUpperCase (s : String) : String :=
  ⟨s.data.map asciiUpperChar⟩

/-! ## Request body, parameters, operations, services (lines 15-131,
360-440, 613-766) -/

/-- Lines 360-440: the single body parameter.  A form-encoded or
multipart negotiated media type reclassifies the body to formData; a
referenced schema short-circuits to a reference-typed descriptor; an
inline schema is fully resolved. -/
def getOperationRequestBody (openApi : OpenAPIDocument)
    (body : RequestBodyObject) : OperationParameter :=
  let requestBody : OperationParameter :=
    { in_ := "body"
      export_ := "interface"
      prop := "body"
      name := "body"
      type := "any"
      base := "any"
      template := none
      link := none
      description := jsOrNull body.description
      deprecated := none
      default := none
      isDefinition := false
      isReadOnly := false
      isRequired := body.required = some true
      isNullable := false
      imports := []
      enum := []
      enums := []
      properties := []
      mediaType := none }
  match body.content with
  | none => requestBody
  | some contentMap =>
    match getContent contentMap with
    | none => requestBody
    | some content =>
      let requestBody := { requestBody with mediaType := some content.mediaType }
      let requestBody :=
        if content.mediaType = "application/x-www-form-urlencoded"
            ∨ content.mediaType = "multipart/form-data" then
          { requestBody with in_ := "formData", name := "formData", prop := "formData" }
        else requestBody
      if jsTruthyStr content.schema.ref then
        let model := openApi.getType (content.schema.ref.getD "")
        { requestBody with
            export_ := "reference"
            type := model.type
            base := model.base
            template := model.template
            imports := requestBody.imports ++ model.imports }
      else
        let model := openApi.getModel "" content.schema
        { requestBody with
            export_ := model.export_
            type := model.type
            base := model.base
            template := model.template
            link := model.link
            isReadOnly := model.isReadOnly
            isRequired := requestBody.isRequired || model.isRequired
            isNullable := requestBody.isNullable || model.isNullable
            imports := requestBody.imports ++ model.imports
            enum := requestBody.enum ++ model.enum
            enums := requestBody.enums ++ model.enums
            properties := requestBody.properties ++ model.properties }

/-- Lines 678-766: one parameter definition converted to an
OperationParameter.  prop keeps the declared name, name is sanitized; a
reference parameter or a referenced schema short-circuits to a
reference-typed descriptor; an inline schema is fully resolved with its
default propagated. -/
def getOperationParameter (openApi : OpenAPIDocument)
    (parameter : ParameterObject) : OperationParameter :=
  let operationParameter : OperationParameter :=
    { in_ := parameter.in_
      prop := parameter.name
      export_ := "interface"
      name := getOperationParameterName parameter.name
      type := "any"
      base := "any"
      template := none
      link := none
      description := jsOrNull parameter.description
      deprecated := some (parameter.deprecated = some true)
      default := none
      isDefinition := false
      isReadOnly := false
      isRequired := parameter.required = some true
      isNullable := false
      imports := []
      enum := []
      enums := []
      properties := []
      mediaType := none }
  if jsTruthyStr parameter.ref then
    let definitionRef := openApi.getType (parameter.ref.getD "")
    { operationParameter with
        export_ := "reference"
        type := definitionRef.type
        base := definitionRef.base
        template := definitionRef.template
        imports := operationParameter.imports ++ definitionRef.imports }
  else
    match parameter.schema with
    | none => operationParameter
    | some schema0 =>
      let schema :=
        if matchesAtStart "#/components/parameters/".data (schema0.ref.getD "").data then
          openApi.getRefSchema schema0
        else schema0
      match schema.ref with
      | some r =>
        { operationParameter with
            export_ := "reference"
            type := (openApi.getType r).type
            base := (openApi.getType r).base
            template := (openApi.getType r).template
            imports := operationParameter.imports ++ (openApi.getType r).imports
            default := openApi.getModelDefault schema }
      | none =>
        let model := openApi.getModel "" schema
        { operationParameter with
            export_ := model.export_
            type := model.type
            base := model.base
            template := model.template
            link := model.link
            isReadOnly := model.isReadOnly
            isRequired := operationParameter.isRequired || model.isRequired
            isNullable := operationParameter.isNullable || model.isNullable
            default := model.default
            imports := operationParameter.imports ++ model.imports
            enum := operationParameter.enum ++ model.enum
            enums := operationParameter.enums ++ model.enums
            properties := operationParameter.properties ++ model.properties }

/-- The empty classification record of lines 617-626. -/
def emptyOperationParameters : OperationParameters :=
  { imports := []
    parameters := []
    parametersPath := []
    parametersQuery := []
    parametersForm := []
    parametersCookie := []
    parametersHeader := []
    parametersBody := none }

/-- The loop body of lines 629-674: one parameter is dereferenced and
converted; a parameter whose declared name is "api-version" is dropped
entirely; the rest are routed by location into exactly one bucket and
also appended to the flat list with their imports accumulated; an
unrecognized location is silently excluded. -/
def getOperationParametersStep (doc : OpenAPIDocument)
    (operationParameters : OperationParameters)
    (parameterOrReference : ParameterObject) : OperationParameters :=
    let parameterDef := doc.getRefParameter parameterOrReference
    let parameter := getOperationParameter doc parameterDef
    if parameter.prop != "api-version" then
      if parameter.in_ == "path" then
        { operationParameters with
            parametersPath := operationParameters.parametersPath ++ [parameter]
            parameters := operationParameters.parameters ++ [parameter]
            imports := operationParameters.imports ++ parameter.imports }
      else if parameter.in_ == "query" then
        { operationParameters with
            parametersQuery := operationParameters.parametersQuery ++ [parameter]
            parameters := operationParameters.parameters ++ [parameter]
            imports := operationParameters.imports ++ parameter.imports }
      else if parameter.in_ == "formData" then
        { operationParameters with
            parametersForm := operationParameters.parametersForm ++ [parameter]
            parameters := operationParameters.parameters ++ [parameter]
            imports := operationParameters.imports ++ parameter.imports }
      else if parameter.in_ == "cookie" then
        { operationParameters with
            parametersCookie := operationParameters.parametersCookie ++ [parameter]
            parameters := operationParameters.parameters ++ [parameter]
            imports := operationParameters.imports ++ parameter.imports }
      else if parameter.in_ == "header" then
        { operationParameters with
            parametersHeader := operationParameters.parametersHeader ++ [parameter]
            parameters := operationParameters.parameters ++ [parameter]
            imports := operationParameters.imports ++ parameter.imports }
      else operationParameters
    else operationParameters

/-- Lines 613-676: fold of the classification step over the parameter
list, from the empty record. -/
def getOperationParameters (doc : OpenAPIDocument)
    (parameters : List ParameterObject) : OperationParameters :=
  parameters.foldl (getOperationParametersStep doc) emptyOperationParameters

/-- Lines 60-131: one operation.  Buckets are seeded from the inherited
path-level parameters, the operation's own parameters are classified and
appended, a request body (dereferenced first) becomes the body parameter,
responses are classified into results/errors/responseHeader, and finally
the flat parameter list is re-sorted required-first. -/
def getOperation (openApi : OpenAPIDocument) (url method : String)
    (op : OperationObject) (pathParams : OperationParameters) : Operation :=
  let operationName := getOperationName url method op.operationId
  let operation : Operation :=
    { id := getOperationId url method op.operationId
      name := operationName
      summary := jsOrNull op.summary
      description := jsOrNull op.description
      deprecated := op.deprecated = some true
      method := jsToUpperCase method
      path := url
      parameters := pathParams.parameters
      parametersPath := pathParams.parametersPath
      parametersQuery := pathParams.parametersQuery
      parametersForm := pathParams.parametersForm
      parametersHeader := pathParams.parametersHeader
      parametersCookie := pathParams.parametersCookie
      parametersBody := pathParams.parametersBody
      imports := []
      errors := []
      results := []
      responseHeader := none }
  let operation :=
    match op.parameters with
    | none => operation
    | some ps =>
      let parameters := getOperationParameters openApi ps
      { operation with
          imports := operation.imports ++ parameters.imports
          parameters := operation.parameters ++ parameters.parameters
          parametersPath := operation.parametersPath ++ parameters.parametersPath
          parametersQuery := operation.parametersQuery ++ parameters.parametersQuery
          parametersForm := operation.parametersForm ++ parameters.parametersForm
          parametersHeader := operation.parametersHeader ++ parameters.parametersHeader
          parametersCookie := operation.parametersCookie ++ parameters.parametersCookie
          parametersBody := parameters.parametersBody }
  let operation :=
    match op.requestBody with
    | none => operation
    | some rb =>
      let requestBodyDef := openApi.getRefRequestBody rb
      let requestBody := getOperationRequestBody openApi requestBodyDef
      { operation with
          imports := operation.imports ++ requestBody.imports
          parameters := operation.parameters ++ [requestBody]
          parametersBody := some requestBody }
  let operation :=
    match op.responses with
    | none => operation
    | some rs =>
      let operationResponses := getOperationResponses openApi rs
      let operationResults : List OperationResponse := getOperationResults operationResponses
      { operation with
          errors := getOperationErrors operationResponses
          responseHeader := getOperationResponseHeader operationResults
          results := operation.results ++ operationResults
          imports := operation.imports
            ++ (operationResults.map
                  (fun (operationResult : OperationResponse) => operationResult.imports)).flatten }
  { operation with parameters := jsSort sortByRequired operation.parameters }

/-- The fixed seven HTTP methods in the declaration order of the
operations object of lines 34-42. -/
def pathSlots (pathObject : PathItem) : List (String × Option OperationObject) :=
  [ ("get", pathObject.get)
  , ("post", pathObject.post)
  , ("put", pathObject.put)
  , ("delete", pathObject.delete)
  , ("patch", pathObject.patch)
  , ("options", pathObject.options)
  , ("head", pathObject.head) ]

/-- Lines 19-58: one service per tag.  Every path entry with a value has
its path-level parameters classified once; each present method whose
operation declares a tag list containing the service name is built and
appended together with its imports.  The nested for/push loops are
rendered as the corresponding flatMap/filterMap. -/
def getService (doc : OpenAPIDocument) (tag : TagObject) : Service :=
  let operations :=
    (doc.paths.getD []).flatMap (fun pe =>
      match pe.2 with
      | none => []
      | some pathObject =>
        let pathParams := getOperationParameters doc (pathObject.parameters.getD [])
        (pathSlots pathObject).filterMap (fun ms =>
          match ms.2 with
          | none => none
          | some op =>
            match op.tags with
            | none => none
            | some ts =>
              if ts.contains tag.name then
                some (getOperation doc pe.1 ms.1 op pathParams)
              else none))
  { name := tag.name
    description := tag.description
    operations := operations
    imports := operations.flatMap (fun operation => operation.imports) }

/-- Lines 15-17. -/
def getServices (doc : OpenAPIDocument) : List Service :=
  (doc.tags.getD []).map (fun tag => getService doc tag)

/-! ## Helper lemmas: structural equality and deduplication -/

theorem jsTruthyStr_none : jsTruthyStr none = false := rfl

theorem jsTruthyStr_some (s : String) : jsTruthyStr (some s) = (s != "") := rfl

theorem areEqual_refl : (m : Model) → areEqual m m = true
  | .mk t b tp l => by
    cases l with
    | none => simp [areEqual]
    | some m' => simp [areEqual, areEqual_refl m']

/-- First-occurrence deduplication, written from the specified behaviour:
walking the list in order, an entry is dropped exactly when a previously
walked entry (kept or dropped) is structurally equal to it, and survivors
keep their relative order; seen collects the type descriptors walked so
far. -/
def keepFirstOccurrences (seen : List Model) : List OperationResponse → List OperationResponse
  | [] => []
  | r :: rest =>
    if seen.any (fun m => areEqual m r.toModel) then
      keepFirstOccurrences (seen ++ [r.toModel]) rest
    else r :: keepFirstOccurrences (seen ++ [r.toModel]) rest

theorem findIdx?_isSome_eq_any (l : List OperationResponse) (m : Model) :
    (l.findIdx? (fun item => areEqual item.toModel m)).isSome
      = (l.map OperationResponse.toModel).any (fun x => areEqual x m) := by
  induction l with
  | nil => simp
  | cons r rest ih =>
    by_cases h : areEqual r.toModel m <;>
      simp [List.findIdx?_cons, List.findIdx?_start_succ, h, ih]

theorem keepFirstOccurrences_append_singleton (seen : List Model)
    (l : List OperationResponse) (x : OperationResponse) :
    keepFirstOccurrences seen (l ++ [x])
      = keepFirstOccurrences seen l
        ++ (if (seen ++ l.map OperationResponse.toModel).any (fun m => areEqual m x.toModel)
            then [] else [x]) := by
  induction l generalizing seen with
  | nil => by_cases h : seen.any (fun m => areEqual m x.toModel) <;>
      simp [keepFirstOccurrences, h]
  | cons r rest ih =>
    by_cases h : seen.any (fun m => areEqual m r.toModel) <;>
      simp [keepFirstOccurrences, h, ih, List.append_assoc]

theorem dedupResults_append_singleton (l : List OperationResponse) (x : OperationResponse) :
    dedupResults (l ++ [x])
      = dedupResults l
        ++ (if (l.map OperationResponse.toModel).any (fun m => areEqual m x.toModel)
            then [] else [x]) := by
  unfold dedupResults
  rw [List.enum_append, List.filter_append, List.map_append]
  have h1 : (l.enum.filter (fun p =>
        (l ++ [x]).findIdx? (fun item => areEqual item.toModel p.2.toModel) == some p.1))
      = (l.enum.filter (fun p =>
        l.findIdx? (fun item => areEqual item.toModel p.2.toModel) == some p.1)) := by
    apply List.filter_congr
    rintro ⟨i, y⟩ hp
    obtain ⟨hlt, -⟩ := List.mem_enum hp
    rw [List.findIdx?_append]
    cases hfi : l.findIdx? (fun item => areEqual item.toModel y.toModel) with
    | some j => simp [Option.or]
    | none =>
      simp only [Option.or]
      cases hq : List.findIdx? (fun item => areEqual item.toModel y.toModel) [x] with
      | none => simp
      | some k =>
        have hk : k = 0 := by
          simp [List.findIdx?_cons] at hq
          rcases hq with ⟨-, hq⟩
          omega
        subst hk
        simp only [Option.map_some']
        have h0 : ¬ (some (0 + l.length) == some i) = true := by
          simp only [beq_iff_eq, Option.some_inj]
          omega
        simp only [Bool.not_eq_true] at h0
        simp [h0]
        omega
  have h2 : (((List.enumFrom l.length [x]).filter (fun p =>
        (l ++ [x]).findIdx? (fun item => areEqual item.toModel p.2.toModel) == some p.1)).map
          (fun p => p.2))
      = (if (l.map OperationResponse.toModel).any (fun m => areEqual m x.toModel)
         then [] else [x]) := by
    have hself : areEqual x.toModel x.toModel = true := areEqual_refl _
    cases hfi : l.findIdx? (fun item => areEqual item.toModel x.toModel) with
    | some j =>
      have hj : j < l.length := by
        rw [List.findIdx?_eq_some_iff_findIdx_eq] at hfi
        exact hfi.1
      have hany : (l.map OperationResponse.toModel).any (fun m => areEqual m x.toModel) = true := by
        rw [← findIdx?_isSome_eq_any, hfi]
        rfl
      have hne : ¬ (some j == some l.length) = true := by
        simp only [beq_iff_eq, Option.some_inj]
        omega
      simp only [Bool.not_eq_true] at hne
      simp [List.enumFrom_cons, List.findIdx?_append, Option.or, hfi, hany, hne]
    | none =>
      have hany : (l.map OperationResponse.toModel).any (fun m => areEqual m x.toModel) = false := by
        rw [← findIdx?_isSome_eq_any, hfi]
        rfl
      simp [List.enumFrom_cons, List.findIdx?_append, Option.or, hfi, hany,
        List.findIdx?_cons, hself]
  rw [h1, h2]

theorem dedupResults_eq_keepFirstOccurrences (l : List OperationResponse) :
    dedupResults l = keepFirstOccurrences [] l := by
  induction l using List.reverseRecOn with
  | nil => rfl
  | append_singleton l x ih =>
    rw [dedupResults_append_singleton, keepFirstOccurrences_append_singleton, ih]
    simp

theorem mem_of_mem_keepFirstOccurrences {seen : List Model} {l : List OperationResponse}
    {x : OperationResponse} (h : x ∈ keepFirstOccurrences seen l) : x ∈ l := by
  induction l generalizing seen with
  | nil => simp [keepFirstOccurrences] at h
  | cons r rest ih =>
    unfold keepFirstOccurrences at h
    by_cases hc : seen.any (fun m => areEqual m r.toModel)
    · rw [if_pos hc] at h
      exact List.mem_cons_of_mem _ (ih h)
    · rw [if_neg hc] at h
      rcases List.mem_cons.mp h with h1 | h1
      · exact h1 ▸ List.mem_cons_self _ _
      · exact List.mem_cons_of_mem _ (ih h1)

theorem getOperationResults_eq (operationResponses : List OperationResponse) :
    getOperationResults operationResponses
      = dedupResults
          (if (operationResponses.filter (fun r => isSuccessResult r.code)).isEmpty
           then [syntheticVoidResponse]
           else operationResponses.filter (fun r => isSuccessResult r.code)) := rfl

/-! ## Claim C1 -/

/-- C1: for every declared responses list, getOperationResults keeps only
entries whose code lies in [200, 300) and is not 204 (every output entry
is such an input entry, or the synthetic placeholder); when no entry
qualifies - the empty input included - the output is exactly the single
synthetic response with in response, code 200, type void, base void,
empty name and empty description; and the output is never empty, so
every operation built from a responses map has at least one result
descriptor. -/
theorem c1_results_filter_and_fallback (operationResponses : List OperationResponse) :
    getOperationResults operationResponses ≠ []
    ∧ ((∀ r ∈ operationResponses, isSuccessResult r.code = false)
        → getOperationResults operationResponses = [syntheticVoidResponse])
    ∧ (∀ r ∈ getOperationResults operationResponses,
        (r ∈ operationResponses ∧ isSuccessResult r.code = true) ∨ r = syntheticVoidResponse) := by
  refine ⟨?_, ?_, ?_⟩
  · rw [getOperationResults_eq, dedupResults_eq_keepFirstOccurrences]
    cases hj : operationResponses.filter (fun r => isSuccessResult r.code) with
    | nil => simp [keepFirstOccurrences]
    | cons a as => simp [keepFirstOccurrences]
  · intro hall
    have hf : operationResponses.filter (fun r => isSuccessResult r.code) = [] := by
      rw [List.filter_eq_nil_iff]
      intro a ha
      simp [hall a ha]
    rw [getOperationResults_eq, hf, dedupResults_eq_keepFirstOccurrences]
    simp [keepFirstOccurrences]
  · intro r hr
    rw [getOperationResults_eq, dedupResults_eq_keepFirstOccurrences] at hr
    cases hj : operationResponses.filter (fun x => isSuccessResult x.code) with
    | nil =>
      rw [hj] at hr
      simp only [List.isEmpty_nil, if_true] at hr
      right
      have hm := mem_of_mem_keepFirstOccurrences hr
      simpa using hm
    | cons a as =>
      rw [hj] at hr
      rw [if_neg (by simp)] at hr
      left
      have hm := mem_of_mem_keepFirstOccurrences hr
      rw [← hj] at hm
      exact List.mem_filter.mp hm

/-- Witness for C1: on the empty responses list, and on a list whose only
entry is a 404, the result list is exactly the synthetic void/200
placeholder. -/
theorem c1_witness :
    getOperationResults [] = [syntheticVoidResponse]
    ∧ getOperationResults [{ syntheticVoidResponse with code := 404 }]
        = [syntheticVoidResponse] :=
  ⟨(c1_results_filter_and_fallback []).2.1 (by simp),
   (c1_results_filter_and_fallback [{ syntheticVoidResponse with code := 404 }]).2.1
     (by intro r hr; simp at hr; subst hr; rfl)⟩

/-! ## Claim C3 -/

/-- C3: getOperationResults deduplicates the filtered (fallback included)
list by recursive structural equality of the type/base/template/link
tuples, comparing through the link chain when both sides carry one: an
entry is dropped exactly when an earlier entry of the list is
structurally equal to it, so only first occurrences survive, in their
original order. -/
theorem c3_results_dedup_first_occurrence (operationResponses : List OperationResponse) :
    getOperationResults operationResponses
      = keepFirstOccurrences []
          (if (operationResponses.filter (fun r => isSuccessResult r.code)).isEmpty
           then [syntheticVoidResponse]
           else operationResponses.filter (fun r => isSuccessResult r.code)) :=
  dedupResults_eq_keepFirstOccurrences _

/-! ## Claim C6 -/

/-- C6: getOperationErrors returns exactly the entries with code at
least 300 and a present, non-empty description, each mapped to its
code/description pair; entries with code at least 300 but an absent or
empty description are absent from the output. -/
theorem c6_errors_exactly (operationResponses : List OperationResponse) :
    getOperationErrors operationResponses
      = operationResponses.filterMap (fun r =>
          match r.description with
          | some d =>
            if 300 ≤ r.code ∧ d ≠ ""
            then some { code := r.code, description := d }
            else none
          | none => none) := by
  induction operationResponses with
  | nil => rfl
  | cons r rest ih =>
    unfold getOperationErrors at ih ⊢
    cases hd : r.description with
    | none =>
      simp [List.filter_cons, List.filterMap_cons, hd, jsTruthyStr_none, ih]
    | some d =>
      by_cases hc : 300 ≤ r.code
      · by_cases hdne : d = ""
        · simp [List.filter_cons, List.filterMap_cons, hd, hdne, jsTruthyStr_some, hc, ih]
        · simp [List.filter_cons, List.filterMap_cons, hd, hdne, jsTruthyStr_some, hc, ih]
      · simp [List.filter_cons, List.filterMap_cons, hd, jsTruthyStr_some, hc, ih]

/-! ## Claim C10 -/

def c10LinkA : Model := .mk "A" "A" none none

def c10LinkC : Model := .mk "C" "C" none none

def c10A : Model := .mk "T" "T" none (some c10LinkA)

def c10B : Model := .mk "T" "T" none none

def c10C : Model := .mk "T" "T" none (some c10LinkC)

def c10RespWithLink : OperationResponse :=
  { syntheticVoidResponse with type := "T", base := "T", link := some c10LinkA }

def c10RespNoLink : OperationResponse :=
  { syntheticVoidResponse with type := "T", base := "T", link := none }

/-- C10: areEqual returns true whenever the two sides agree on type,
base and template and at least one side has no link, even when the other
carries one; consequently the relation is not transitive (witnessed by
c10A, c10B, c10C), and getOperationResults collapses a link-carrying
result with a link-free one sharing its top-level tuple. -/
theorem c10_areEqual_one_sided_link :
    (∀ a b : Model, a.type = b.type → a.base = b.base → a.template = b.template →
        (a.link = none ∨ b.link = none) → areEqual a b = true)
    ∧ (areEqual c10A c10B = true ∧ areEqual c10B c10C = true ∧ areEqual c10A c10C = false)
    ∧ getOperationResults [c10RespWithLink, c10RespNoLink] = [c10RespWithLink] := by
  refine ⟨?_, by decide, by decide⟩
  intro a b
  cases a with | mk t1 b1 tp1 l1 =>
  cases b with | mk t2 b2 tp2 l2 =>
  intro ht hb htp hl
  simp only [Model.type, Model.base, Model.template, Model.link] at ht hb htp hl
  subst ht
  subst hb
  subst htp
  rcases hl with h | h
  · subst h
    cases l2 <;> simp [areEqual]
  · subst h
    cases l1 <;> simp [areEqual]

/-- Witness for C10: the one-sided-link conjunct applied at concrete
models. -/
theorem c10_witness : areEqual c10A c10B = true :=
  c10_areEqual_one_sided_link.1 c10A c10B rfl rfl rfl (Or.inr rfl)

/-! ## Concrete test fixtures shared by several witnesses -/

def trivialModelDescriptor : ModelDescriptor :=
  { export_ := "generic"
    type := "any"
    base := "any"
    template := none
    link := none
    isReadOnly := false
    isRequired := false
    isNullable := false
    default := none
    imports := []
    enum := []
    enums := []
    properties := [] }

/-- A document with identity dereferencing and a constant model
resolver: enough to drive the pipeline on concrete inputs. -/
def trivialDoc : OpenAPIDocument :=
  { tags := none
    paths := none
    getRefParameter := fun p => p
    getRefResponse := fun r => r
    getRefRequestBody := fun b => b
    getRefSchema := fun s => s
    getModel := fun _ _ => trivialModelDescriptor
    getType := fun _ => trivialModelDescriptor
    getModelDefault := fun _ => none }

def c4Response : ResponseObject :=
  { description := some "weird", content := none, headers := none }

/-! ## Claim C4 -/

/-- Counterexample to C4 as stated: the key "2xx" does not consist of
decimal digits, so by the claim it should be dropped silently; but the
un-anchored digit test passes and parseInt("2xx") = 2, so the code
produces a descriptor with code 2 for it. -/
theorem c4_counterexample :
    getOperationResponseCode "2xx" = some 2
    ∧ (getOperationResponses trivialDoc [("2xx", c4Response)]).map (fun r => r.code) = [2] := by
  constructor
  · decide
  · decide

/-- C4 (amended): the literal key "default" maps to code 200; any other
key containing at least one decimal digit is parsed with JS parseInt
semantics and, when that parse yields an integer, its absolute value is
the code; keys failing this, and keys parsing to the falsy code 0,
produce no descriptor and no error - the entry is skipped silently. -/
theorem c4_response_code_amended :
    getOperationResponseCode "default" = some 200
    ∧ (∀ s : String, s ≠ "default" →
        getOperationResponseCode s
          = (if s.data.any isAsciiDigit then (jsParseInt s).map Int.natAbs else none))
    ∧ (∀ (doc : OpenAPIDocument) (k : String) (resp : ResponseObject)
        (rs : List (String × ResponseObject)),
        (getOperationResponseCode k = none ∨ getOperationResponseCode k = some 0) →
        getOperationResponses doc ((k, resp) :: rs) = getOperationResponses doc rs) := by
  refine ⟨rfl, ?_, ?_⟩
  · intro s hs
    rw [getOperationResponseCode, if_neg hs]
    by_cases hd : s.data.any isAsciiDigit
    · rw [if_pos hd, if_pos hd]
      cases jsParseInt s <;> simp
    · rw [if_neg hd, if_neg hd]
  · intro doc k resp rs h
    unfold getOperationResponses
    rcases h with h | h <;> simp [List.filterMap_cons, h]

/-- Witness for C4 (amended): the digit-key conjunct applied at "404",
and the silent-drop conjunct applied at the digitless key "xyz". -/
theorem c4_witness :
    getOperationResponseCode "404" = some 404
    ∧ getOperationResponses trivialDoc [("xyz", c4Response)] = getOperationResponses trivialDoc [] :=
  ⟨(c4_response_code_amended.2.1 "404" (by decide)).trans (by decide),
   c4_response_code_amended.2.2 trivialDoc "xyz" c4Response [] (Or.inl (by decide))⟩

/-! ## Claim C5 -/

theorem find?_congr_on (l : List α) (p q : α → Bool) (h : ∀ a ∈ l, p a = q a) :
    l.find? p = l.find? q := by
  induction l with
  | nil => rfl
  | cons a l ih =>
    have h0 := h a (List.mem_cons_self a l)
    rw [List.find?_cons, List.find?_cons, h0]
    cases hq : q a
    · exact ih (fun x hx => h x (List.mem_cons_of_mem _ hx))
    · rfl

theorem jsGet_cons (a : String × MediaTypeObject) (rest : List (String × MediaTypeObject))
    (m : String) :
    jsGet (a :: rest) m = if a.1 == m then some a.2 else jsGet rest m := by
  by_cases hk : (a.1 == m) = true <;> simp [jsGet, List.find?_cons, hk]

theorem jsGet_shadow (a : String × MediaTypeObject) (rest : List (String × MediaTypeObject))
    (m : String) (hne : m ≠ a.1) : jsGet (a :: rest) m = jsGet rest m := by
  rw [jsGet_cons, if_neg]
  simp only [beq_iff_eq]
  exact fun hEq => hne hEq.symm

theorem jsGet_self_of_nodup {content : List (String × MediaTypeObject)}
    (hnd : (content.map (fun e => e.1)).Nodup) {e : String × MediaTypeObject}
    (he : e ∈ content) : jsGet content e.1 = some e.2 := by
  induction content with
  | nil => simp at he
  | cons a rest ih =>
    rw [List.map_cons, List.nodup_cons] at hnd
    rcases List.mem_cons.mp he with h | h
    · subst h
      simp [jsGet, List.find?_cons]
    · have hne : ¬ (a.1 == e.1) = true := by
        simp only [beq_iff_eq]
        intro hEq
        exact hnd.1 (hEq ▸ List.mem_map_of_mem (fun x => x.1) h)
      rw [jsGet_cons, if_neg hne]
      exact ih hnd.2 h

theorem content_find_stage (content : List (String × MediaTypeObject))
    (hnd : (content.map (fun e => e.1)).Nodup) (Q : String → Bool) :
    ((content.map (fun e => e.1)).filter Q).find?
        (fun m => ((jsGet content m).bind (fun mt => mt.schema)).isSome)
      = (content.find? (fun e => Q e.1 && e.2.schema.isSome)).map (fun e => e.1) := by
  induction content with
  | nil => rfl
  | cons a rest ih =>
    rw [List.map_cons, List.nodup_cons] at hnd
    obtain ⟨hnotin, hnd2⟩ := hnd
    have hcongr : ∀ m ∈ (rest.map (fun e => e.1)).filter Q,
        (((jsGet (a :: rest) m).bind (fun mt => mt.schema)).isSome : Bool)
          = ((jsGet rest m).bind (fun mt => mt.schema)).isSome := by
      intro m hm
      have hm2 : m ∈ rest.map (fun e => e.1) := (List.mem_filter.mp hm).1
      have hne : m ≠ a.1 := fun hEq => hnotin (hEq ▸ hm2)
      rw [jsGet_shadow a rest m hne]
    have hself : jsGet (a :: rest) a.1 = some a.2 := by
      simp [jsGet, List.find?_cons]
    rw [List.map_cons, List.filter_cons]
    by_cases hQ : Q a.1 = true
    · rw [if_pos hQ, List.find?_cons, List.find?_cons, hself]
      by_cases hsome : a.2.schema.isSome = true
      · simp [hsome, hQ]
      · simp only [Option.some_bind, hsome, hQ, Bool.true_and, Bool.false_eq_true]
        rw [find?_congr_on _ _ _ hcongr]
        exact ih hnd2
    · rw [if_neg hQ, List.find?_cons]
      simp only [hQ, Bool.false_and, Bool.false_eq_true]
      rw [find?_congr_on _ _ _ hcongr]
      exact ih hnd2

theorem content_find_stage2 (content : List (String × MediaTypeObject))
    (hnd : (content.map (fun e => e.1)).Nodup) :
    (content.map (fun e => e.1)).find?
        (fun m => ((jsGet content m).bind (fun mt => mt.schema)).isSome)
      = (content.find? (fun e => e.2.schema.isSome)).map (fun e => e.1) := by
  have h := content_find_stage content hnd (fun _ => true)
  rw [List.filter_true] at h
  simpa using h

/-- The content selector written from the claim's words: the first
declared media type that is allow-listed (its type taken before any
;-delimited suffix) and carries a schema; failing that, the first
declared media type of any kind carrying a schema; failing that, null. -/
def selectContentSpec (content : List (String × MediaTypeObject)) : Option Content :=
  match content.find? (fun e =>
      BASIC_MEDIA_TYPES.contains (cleanMediaType e.1) && e.2.schema.isSome) with
  | some e => e.2.schema.map (fun s => { mediaType := e.1, schema := s })
  | none =>
    match content.find? (fun e => e.2.schema.isSome) with
    | some e => e.2.schema.map (fun s => { mediaType := e.1, schema := s })
    | none => none

theorem getContent_eq_spec (content : List (String × MediaTypeObject))
    (hnd : (content.map (fun e => e.1)).Nodup) :
    getContent content = selectContentSpec content := by
  unfold getContent selectContentSpec
  dsimp only
  rw [content_find_stage content hnd (fun m => BASIC_MEDIA_TYPES.contains (cleanMediaType m))]
  cases h1 : content.find? (fun e =>
      BASIC_MEDIA_TYPES.contains (cleanMediaType e.1) && e.2.schema.isSome) with
  | some e =>
    have hmem : e ∈ content := List.mem_of_find?_eq_some h1
    simp only [Option.map_some']
    rw [jsGet_self_of_nodup hnd hmem]
    rfl
  | none =>
    simp only [Option.map_none']
    rw [content_find_stage2 content hnd]
    cases h2 : content.find? (fun e => e.2.schema.isSome) with
    | some e =>
      have hmem : e ∈ content := List.mem_of_find?_eq_some h2
      simp only [Option.map_some']
      rw [jsGet_self_of_nodup hnd hmem]
      rfl
    | none => rfl

/-- C5: with distinct media-type keys (as JS object keys are),
getContent returns the first declared media type whose type - ignoring
any ;-delimited suffix - is allow-listed and whose schema is defined;
failing that the first declared media type with a defined schema; and it
returns null exactly when no media type in the map carries a schema. -/
theorem c5_content_negotiation (content : List (String × MediaTypeObject))
    (hnd : (content.map (fun e => e.1)).Nodup) :
    getContent content = selectContentSpec content
    ∧ (getContent content = none ↔ ∀ e ∈ content, e.2.schema = none) := by
  refine ⟨getContent_eq_spec content hnd, ?_⟩
  rw [getContent_eq_spec content hnd]
  unfold selectContentSpec
  cases h1 : content.find? (fun e =>
      BASIC_MEDIA_TYPES.contains (cleanMediaType e.1) && e.2.schema.isSome) with
  | some e =>
    have hp := List.find?_some h1
    have hmem : e ∈ content := List.mem_of_find?_eq_some h1
    rw [Bool.and_eq_true] at hp
    constructor
    · intro hnone
      rcases Option.isSome_iff_exists.mp hp.2 with ⟨s, hs⟩
      simp [hs] at hnone
    · intro hall
      have := hall e hmem
      rw [this] at hp
      simp at hp
  | none =>
    cases h2 : content.find? (fun e => e.2.schema.isSome) with
    | some e =>
      have hp := List.find?_some h2
      have hmem : e ∈ content := List.mem_of_find?_eq_some h2
      constructor
      · intro hnone
        rcases Option.isSome_iff_exists.mp hp with ⟨s, hs⟩
        simp [hs] at hnone
      · intro hall
        have := hall e hmem
        rw [this] at hp
        simp at hp
    | none =>
      simp only [true_iff]
      rw [List.find?_eq_none] at h2
      intro e he
      have := h2 e he
      simpa using this

def c5Example : List (String × MediaTypeObject) :=
  [ ("application/xml", { schema := some { ref := none, id := 1 } })
  , ("application/json", { schema := some { ref := none, id := 2 } })
  , ("text/plain", { schema := none }) ]

/-- Witness for C5: on a concrete map the allow-listed JSON entry wins
over the earlier XML entry, exactly as the spec-side selector says. -/
theorem c5_witness :
    getContent c5Example = selectContentSpec c5Example
    ∧ getContent c5Example
        = some { mediaType := "application/json", schema := { ref := none, id := 2 } } :=
  ⟨(c5_content_negotiation c5Example (by decide)).1, by decide⟩

/-! ## Claim C7 -/

/-- C7: a response that declares no content but at least one header is
surfaced as a header descriptor - in header, name the first declared
header key, type and base fixed to string; getOperationResponseHeader is
the name of the first descriptor whose location is header, or null; and
on the owning operation responseHeader is computed from exactly the
post-deduplication result list. -/
theorem c7_response_header_surface :
    (∀ (doc : OpenAPIDocument) (response : ResponseObject) (code : Nat)
        (hd : String) (tl : List String),
        response.content = none → response.headers = some (hd :: tl) →
        (getOperationResponse doc response code).in_ = "header"
        ∧ (getOperationResponse doc response code).name = hd
        ∧ (getOperationResponse doc response code).type = "string"
        ∧ (getOperationResponse doc response code).base = "string")
    ∧ (∀ results : List OperationResponse,
        getOperationResponseHeader results
          = (results.find? (fun r => r.in_ == "header")).map (fun r => r.name))
    ∧ (∀ (doc : OpenAPIDocument) (url method : String) (op : OperationObject)
        (pathParams : OperationParameters) (rs : List (String × ResponseObject)),
        op.responses = some rs →
        (getOperation doc url method op pathParams).responseHeader
          = getOperationResponseHeader (getOperationResults (getOperationResponses doc rs))) := by
  refine ⟨?_, ?_, ?_⟩
  · intro doc response code hd tl hcontent hheaders
    unfold getOperationResponse
    rw [hcontent, hheaders]
    exact ⟨rfl, rfl, rfl, rfl⟩
  · intro results
    unfold getOperationResponseHeader
    cases results.find? (fun r => r.in_ == "header") <;> rfl
  · intro doc url method op pathParams rs hresp
    cases hp : op.parameters <;> cases hb : op.requestBody <;>
      simp [getOperation, hp, hb, hresp]

def c7Response : ResponseObject :=
  { description := some "Response", content := none, headers := some ["X-RateLimit"] }

def c7OperationObject : OperationObject :=
  { operationId := some "rates/get-rate-limit"
    summary := none
    description := none
    deprecated := none
    tags := some ["rates"]
    parameters := none
    requestBody := none
    responses := some [("200", c7Response)] }

/-- Witness for C7: on a concrete response declaring only the header
X-RateLimit, the descriptor is a string-typed header surface and the
owning operation's responseHeader equals X-RateLimit. -/
theorem c7_witness :
    ((getOperationResponse trivialDoc c7Response 200).in_ = "header"
      ∧ (getOperationResponse trivialDoc c7Response 200).name = "X-RateLimit"
      ∧ (getOperationResponse trivialDoc c7Response 200).type = "string"
      ∧ (getOperationResponse trivialDoc c7Response 200).base = "string")
    ∧ (getOperation trivialDoc "/rate_limit" "get" c7OperationObject
          emptyOperationParameters).responseHeader
        = getOperationResponseHeader
            (getOperationResults (getOperationResponses trivialDoc [("200", c7Response)]))
    ∧ (getOperation trivialDoc "/rate_limit" "get" c7OperationObject
          emptyOperationParameters).responseHeader = some "X-RateLimit" :=
  ⟨c7_response_header_surface.1 trivialDoc c7Response 200 "X-RateLimit" [] rfl rfl,
   c7_response_header_surface.2.2 trivialDoc "/rate_limit" "get" c7OperationObject
     emptyOperationParameters [("200", c7Response)] rfl,
   by decide⟩

/-! ## Claim C2 -/

/-- The key the comparator of lines 141-147 sorts by: required with no
default value. -/
def needsValue (p : OperationParameter) : Bool :=
  p.isRequired && p.default.isNone

theorem sortByRequired_neg {x y : OperationParameter}
    (hx : needsValue x = true) (hy : needsValue y = false) : sortByRequired x y = -1 := by
  unfold needsValue at hx hy
  simp [sortByRequired, hx, hy]

theorem sortByRequired_not_lt_of_needs {x y : OperationParameter}
    (hy : needsValue y = true) : ¬ sortByRequired x y < 0 := by
  unfold needsValue at hy
  unfold sortByRequired
  by_cases hx : (x.isRequired && x.default.isNone) = true <;> simp [hx, hy]

theorem sortByRequired_not_lt_of_not_needs {x y : OperationParameter}
    (hx : needsValue x = false) : ¬ sortByRequired x y < 0 := by
  unfold needsValue at hx
  unfold sortByRequired
  by_cases hy : (y.isRequired && y.default.isNone) = true <;> simp [hx, hy]

theorem insertStable_skip_needs (A B : List OperationParameter) (x : OperationParameter)
    (hA : ∀ a ∈ A, needsValue a = true) :
    insertStable sortByRequired x (A ++ B) = A ++ insertStable sortByRequired x B := by
  induction A with
  | nil => rfl
  | cons a as ih =>
    have ha := hA a (List.mem_cons_self a as)
    rw [List.cons_append, insertStable, if_neg (sortByRequired_not_lt_of_needs ha)]
    rw [ih (fun a' h => hA a' (List.mem_cons_of_mem _ h))]
    rfl

theorem insertStable_head_of_needs (B : List OperationParameter) (x : OperationParameter)
    (hx : needsValue x = true) (hB : ∀ b ∈ B, needsValue b = false) :
    insertStable sortByRequired x B = x :: B := by
  cases B with
  | nil => rfl
  | cons b bs =>
    have hb := hB b (List.mem_cons_self b bs)
    rw [insertStable, if_pos]
    rw [sortByRequired_neg hx hb]
    decide

theorem insertStable_last_of_not_needs (B : List OperationParameter) (x : OperationParameter)
    (hx : needsValue x = false) :
    insertStable sortByRequired x B = B ++ [x] := by
  induction B with
  | nil => rfl
  | cons b bs ih =>
    rw [insertStable, if_neg (sortByRequired_not_lt_of_not_needs hx), ih]
    rfl

theorem foldl_insertStable_partition (l : List OperationParameter)
    (A B : List OperationParameter)
    (hA : ∀ a ∈ A, needsValue a = true) (hB : ∀ b ∈ B, needsValue b = false) :
    l.foldl (fun acc x => insertStable sortByRequired x acc) (A ++ B)
      = (A ++ l.filter needsValue) ++ (B ++ l.filter (fun p => !needsValue p)) := by
  induction l generalizing A B with
  | nil => simp
  | cons x xs ih =>
    rw [List.foldl_cons]
    by_cases hx : needsValue x = true
    · rw [insertStable_skip_needs A B x hA, insertStable_head_of_needs B x hx hB]
      have hstep : A ++ x :: B = (A ++ [x]) ++ B := by simp
      rw [hstep, ih (A ++ [x]) B ?_ hB]
      · simp [List.filter_cons, hx]
      · intro a ha
        rcases List.mem_append.mp ha with h | h
        · exact hA a h
        · rw [List.mem_singleton.mp h]
          exact hx
    · rw [Bool.not_eq_true] at hx
      rw [insertStable_skip_needs A B x hA, insertStable_last_of_not_needs B x hx]
      have hstep : A ++ (B ++ [x]) = A ++ (B ++ [x]) := rfl
      rw [← List.append_assoc A B [x]]
      have : (A ++ B) ++ [x] = A ++ (B ++ [x]) := by simp
      rw [this, ih A (B ++ [x]) hA ?_]
      · simp [List.filter_cons, hx]
      · intro b hb
        rcases List.mem_append.mp hb with h | h
        · exact hB b h
        · rw [List.mem_singleton.mp h]
          exact hx

theorem jsSort_sortByRequired_partition (l : List OperationParameter) :
    jsSort sortByRequired l = l.filter needsValue ++ l.filter (fun p => !needsValue p) := by
  have h := foldl_insertStable_partition l [] [] (by simp) (by simp)
  simpa [jsSort] using h

theorem getOperationParametersStep_prop (doc : OpenAPIDocument)
    (acc : OperationParameters) (q : ParameterObject)
    (hacc : ∀ p ∈ acc.parameters, p.prop ≠ "api-version") :
    ∀ p ∈ (getOperationParametersStep doc acc q).parameters, p.prop ≠ "api-version" := by
  intro p hp
  unfold getOperationParametersStep at hp
  by_cases hguard :
      ((getOperationParameter doc (doc.getRefParameter q)).prop != "api-version") = true
  · rw [if_pos hguard] at hp
    have hne : (getOperationParameter doc (doc.getRefParameter q)).prop ≠ "api-version" :=
      bne_iff_ne.mp hguard
    split_ifs at hp <;>
      first
        | (rcases List.mem_append.mp hp with h | h
           · exact hacc p h
           · rw [List.mem_singleton.mp h]
             exact hne)
        | exact hacc p hp
  · rw [if_neg hguard] at hp
    exact hacc p hp

theorem getOperationParameters_prop (doc : OpenAPIDocument) (ps : List ParameterObject) :
    ∀ p ∈ (getOperationParameters doc ps).parameters, p.prop ≠ "api-version" := by
  unfold getOperationParameters
  have haux : ∀ (l : List ParameterObject) (acc : OperationParameters),
      (∀ p ∈ acc.parameters, p.prop ≠ "api-version") →
      ∀ p ∈ (l.foldl (getOperationParametersStep doc) acc).parameters,
        p.prop ≠ "api-version" := by
    intro l
    induction l with
    | nil => intro acc hacc; exact hacc
    | cons q qs ih =>
      intro acc hacc
      rw [List.foldl_cons]
      exact ih _ (getOperationParametersStep_prop doc acc q hacc)
  exact haux ps emptyOperationParameters (by intro p hp; simp [emptyOperationParameters] at hp)

theorem getOperationRequestBody_prop (openApi : OpenAPIDocument) (body : RequestBodyObject) :
    (getOperationRequestBody openApi body).prop = "body"
    ∨ (getOperationRequestBody openApi body).prop = "formData" := by
  unfold getOperationRequestBody
  cases body.content with
  | none => left; rfl
  | some cm =>
    dsimp only
    cases hgc : getContent cm with
    | none => left; rfl
    | some content =>
      dsimp only
      split_ifs <;> first | (left; rfl) | (right; rfl)

/-- The concatenation the claim describes: the inherited classified
path-level parameters, then the operation's own classified parameters,
then the body parameter when a request body exists. -/
def c2Base (doc : OpenAPIDocument) (op : OperationObject)
    (rawPathParams : List ParameterObject) : List OperationParameter :=
  (getOperationParameters doc rawPathParams).parameters
    ++ (match op.parameters with
        | some ps => (getOperationParameters doc ps).parameters
        | none => [])
    ++ (match op.requestBody with
        | some rb => [getOperationRequestBody doc (doc.getRefRequestBody rb)]
        | none => [])

/-- C2: the final parameter list of a built operation is the stable
required-first re-sort of the concatenation of the inherited (classified)
path-level parameters, the operation's own classified parameters, and the
body parameter when a request body exists: every required-without-default
parameter precedes every other parameter, the relative order within each
class is the concatenation order, and no parameter declared as
api-version appears anywhere in it. -/
theorem c2_parameters_sorted_concatenation (doc : OpenAPIDocument) (url method : String)
    (op : OperationObject) (rawPathParams : List ParameterObject) :
    (getOperation doc url method op (getOperationParameters doc rawPathParams)).parameters
      = (c2Base doc op rawPathParams).filter needsValue
        ++ (c2Base doc op rawPathParams).filter (fun p => !needsValue p)
    ∧ ((getOperation doc url method op
          (getOperationParameters doc rawPathParams)).parameters.all
        (fun p => p.prop != "api-version")) = true := by
  have hparams :
      (getOperation doc url method op (getOperationParameters doc rawPathParams)).parameters
        = jsSort sortByRequired (c2Base doc op rawPathParams) := by
    cases hp : op.parameters <;> cases hb : op.requestBody <;> cases hr : op.responses <;>
      simp [getOperation, c2Base, hp, hb, hr]
  have hbase : ∀ p ∈ c2Base doc op rawPathParams, p.prop ≠ "api-version" := by
    intro p hp
    unfold c2Base at hp
    rcases List.mem_append.mp hp with h | h2
    · rcases List.mem_append.mp h with h1 | h1
      · exact getOperationParameters_prop doc rawPathParams p h1
      · cases hop : op.parameters with
        | none => rw [hop] at h1; simp at h1
        | some ps =>
          rw [hop] at h1
          exact getOperationParameters_prop doc ps p h1
    · cases hrb : op.requestBody with
      | none => rw [hrb] at h2; simp at h2
      | some rb =>
        rw [hrb] at h2
        rw [List.mem_singleton.mp h2]
        rcases getOperationRequestBody_prop doc (doc.getRefRequestBody rb) with h3 | h3 <;>
          simp [h3]
  refine ⟨?_, ?_⟩
  · rw [hparams, jsSort_sortByRequired_partition]
  · rw [List.all_eq_true]
    intro p hp
    rw [hparams, jsSort_sortByRequired_partition] at hp
    have hmem : p ∈ c2Base doc op rawPathParams := by
      rcases List.mem_append.mp hp with h | h
      · exact (List.mem_filter.mp h).1
      · exact (List.mem_filter.mp h).1
    exact bne_iff_ne.mpr (hbase p hmem)

/-! ## Claim C8 -/

def c8Op : OperationObject :=
  { operationId := some "activity/list-notifications"
    summary := none
    description := none
    deprecated := none
    tags := some ["activity", "admin"]
    parameters := none
    requestBody := none
    responses := some [("200", { description := some "OK", content := none, headers := none })] }

def c8PathItem : PathItem :=
  { parameters := none
    get := some c8Op
    post := none
    put := none
    delete := none
    patch := none
    options := none
    head := none }

def c8Doc : OpenAPIDocument :=
  { trivialDoc with
      tags := some [{ name := "activity", description := none }
                   , { name := "admin", description := none }]
      paths := some [("/notifications", some c8PathItem)] }

def c8Built : Operation :=
  getOperation c8Doc "/notifications" "get" c8Op (getOperationParameters c8Doc [])

/-- C8: an operation is built into a service exactly when it sits at a
present method slot of a present path entry, declares a tag list, and
that list contains the service's name - so an untagged operation lands in
no service; and on a concrete document whose single operation declares
the two tags activity and admin, aggregation yields the two services each
holding one structurally identical independently built Operation. -/
theorem c8_service_membership :
    (∀ (doc : OpenAPIDocument) (tag : TagObject) (x : Operation),
        x ∈ (getService doc tag).operations ↔
          ∃ path pathItem methodName op ts,
            (path, some pathItem) ∈ doc.paths.getD []
            ∧ (methodName, some op) ∈ pathSlots pathItem
            ∧ op.tags = some ts
            ∧ ts.contains tag.name = true
            ∧ x = getOperation doc path methodName op
                (getOperationParameters doc (pathItem.parameters.getD [])))
    ∧ (getServices c8Doc).map (fun s => (s.name, s.operations))
        = [("activity", [c8Built]), ("admin", [c8Built])] := by
  constructor
  · intro doc tag x
    constructor
    · intro hx
      unfold getService at hx
      dsimp only at hx
      rw [List.mem_flatMap] at hx
      obtain ⟨pe, hpe, hxin⟩ := hx
      obtain ⟨path, opt⟩ := pe
      cases opt with
      | none => simp at hxin
      | some pathItem =>
        dsimp only at hxin
        rw [List.mem_filterMap] at hxin
        obtain ⟨ms, hms, hval⟩ := hxin
        obtain ⟨methodName, oo⟩ := ms
        cases oo with
        | none => simp at hval
        | some op =>
          dsimp only at hval
          cases hts : op.tags with
          | none => rw [hts] at hval; simp at hval
          | some ts =>
            rw [hts] at hval
            dsimp only at hval
            by_cases hc : ts.contains tag.name = true
            · rw [if_pos hc] at hval
              exact ⟨path, pathItem, methodName, op, ts, hpe, hms, hts, hc,
                (Option.some.inj hval).symm⟩
            · rw [if_neg hc] at hval
              simp at hval
    · rintro ⟨path, pathItem, methodName, op, ts, hpe, hms, hts, hc, hx⟩
      unfold getService
      dsimp only
      rw [List.mem_flatMap]
      refine ⟨(path, some pathItem), hpe, ?_⟩
      dsimp only
      rw [List.mem_filterMap]
      refine ⟨(methodName, some op), hms, ?_⟩
      dsimp only
      rw [hts]
      dsimp only
      rw [if_pos hc, hx]
  · rfl

/-- Witness for C8: the membership characterization applied at the
concrete two-tag document, for each of the two services. -/
theorem c8_witness :
    c8Built ∈ (getService c8Doc { name := "activity", description := none }).operations
    ∧ c8Built ∈ (getService c8Doc { name := "admin", description := none }).operations :=
  ⟨(c8_service_membership.1 c8Doc { name := "activity", description := none } c8Built).mpr
     ⟨"/notifications", c8PathItem, "get", c8Op, ["activity", "admin"],
       by decide, by decide, rfl, by decide, rfl⟩,
   (c8_service_membership.1 c8Doc { name := "admin", description := none } c8Built).mpr
     ⟨"/notifications", c8PathItem, "get", c8Op, ["activity", "admin"],
       by decide, by decide, rfl, by decide, rfl⟩⟩

/-! ## Claim C9 -/

theorem toNat_ofNat_of_lt (n : Nat) (h : n < 55296) : (Char.ofNat n).toNat = n := by
  have hv : Nat.isValidChar n := Or.inl h
  rw [Char.ofNat, dif_pos hv]
  show (BitVec.ofNatLt n _).toNat = n
  simp [BitVec.toNat_ofNatLt]

theorem isAsciiAlnum_asciiLowerChar {c : Char} (h : isAsciiAlnum c = true) :
    isAsciiAlnum (asciiLowerChar c) = true := by
  unfold asciiLowerChar
  by_cases hu : isAsciiUpper c = true
  · rw [if_pos hu]
    unfold isAsciiUpper at hu
    simp only [Bool.and_eq_true, decide_eq_true_eq] at hu
    have ht : (Char.ofNat (c.toNat + 32)).toNat = c.toNat + 32 :=
      toNat_ofNat_of_lt _ (by omega)
    unfold isAsciiAlnum isAsciiLetter isAsciiLower isAsciiUpper isAsciiDigit
    simp only [ht, Bool.or_eq_true, Bool.and_eq_true, decide_eq_true_eq]
    omega
  · rw [if_neg hu]
    exact h

theorem isAsciiAlnum_asciiUpperChar {c : Char} (h : isAsciiAlnum c = true) :
    isAsciiAlnum (asciiUpperChar c) = true := by
  unfold asciiUpperChar
  by_cases hl : isAsciiLower c = true
  · rw [if_pos hl]
    unfold isAsciiLower at hl
    simp only [Bool.and_eq_true, decide_eq_true_eq] at hl
    have ht : (Char.ofNat (c.toNat - 32)).toNat = c.toNat - 32 :=
      toNat_ofNat_of_lt _ (by omega)
    unfold isAsciiAlnum isAsciiLetter isAsciiLower isAsciiUpper isAsciiDigit
    simp only [ht, Bool.or_eq_true, Bool.and_eq_true, decide_eq_true_eq]
    omega
  · rw [if_neg hl]
    exact h

theorem mem_jsTrimChars {l : List Char} {x : Char} (h : x ∈ jsTrimChars l) : x ∈ l := by
  unfold jsTrimChars at h
  rw [List.mem_reverse] at h
  have h2 : x ∈ (l.dropWhile Char.isWhitespace).reverse :=
    (List.dropWhile_sublist _).mem h
  rw [List.mem_reverse] at h2
  exact (List.dropWhile_sublist _).mem h2

theorem mem_replaceNonWordRuns : ∀ (b : Bool) (l : List Char),
    ∀ c ∈ replaceNonWordRunsAux b l, isWordOrDash c = true := by
  intro b l
  induction l generalizing b with
  | nil => intro c hc; simp [replaceNonWordRunsAux] at hc
  | cons x rest ih =>
    intro c hc
    unfold replaceNonWordRunsAux at hc
    by_cases hw : isWordOrDash x = true
    · rw [if_pos hw] at hc
      rcases List.mem_cons.mp hc with h | h
      · exact h ▸ hw
      · exact ih false c h
    · rw [if_neg hw] at hc
      cases b with
      | true => exact ih true c (by simpa using hc)
      | false =>
        rcases List.mem_cons.mp (by simpa using hc) with h | h
        · subst h; decide
        · exact ih true c h

theorem mem_sanitizeIdentifier (value : String) :
    ∀ c ∈ (sanitizeIdentifier value).data, isWordOrDash c = true := by
  intro c hc
  have h1 : c ∈ replaceNonWordRunsAux false (stripLeadingNonLetters value.data) :=
    mem_jsTrimChars hc
  exact mem_replaceNonWordRuns false _ c h1

theorem mem_markCamelHumps : ∀ (prev : Option Char) (l : List Char),
    ∀ c ∈ markCamelHumps prev l, c ∈ l ∨ c = '-' := by
  intro prev l
  induction l generalizing prev with
  | nil => intro c hc; simp [markCamelHumps] at hc
  | cons x rest ih =>
    intro c hc
    unfold markCamelHumps at hc
    dsimp only at hc
    have hcons : c ∈ x :: markCamelHumps (some x) rest → c ∈ x :: rest ∨ c = '-' := by
      intro h
      rcases List.mem_cons.mp h with h1 | h1
      · left; exact h1 ▸ List.mem_cons_self x rest
      · rcases ih (some x) c h1 with h3 | h3
        · left; exact List.mem_cons_of_mem _ h3
        · right; exact h3
    rcases prev with _ | p
    · simp only [Bool.false_eq_true, if_false] at hc
      exact hcons hc
    · by_cases hb : ((isAsciiLower p || isAsciiDigit p) && isAsciiUpper x) = true
      · rw [if_pos hb] at hc
        rcases List.mem_cons.mp hc with h | h
        · right; exact h
        · exact hcons h
      · rw [if_neg hb] at hc
        exact hcons hc

theorem alnum_of_wordOrDash_not_separator {c : Char} (h1 : isWordOrDash c = true)
    (h2 : isSeparatorChar c = false) : isAsciiAlnum c = true := by
  have hd : c ≠ '-' := fun hEq => by simp [hEq, isSeparatorChar] at h2
  have hu : c ≠ '_' := fun hEq => by simp [hEq, isSeparatorChar] at h2
  unfold isWordOrDash isWordChar at h1
  simp only [Bool.or_eq_true, decide_eq_true_eq] at h1
  rcases h1 with (h | h) | h
  · exact h
  · exact absurd h hu
  · exact absurd h hd

theorem mem_splitWordsAux : ∀ (l cur : List Char),
    (∀ c ∈ cur, isAsciiAlnum c = true) → (∀ c ∈ l, isWordOrDash c = true) →
    ∀ w ∈ splitWordsAux cur l, ∀ c ∈ w, isAsciiAlnum c = true := by
  intro l
  induction l with
  | nil =>
    intro cur hcur _ w hw c hc
    unfold splitWordsAux at hw
    by_cases he : cur.isEmpty = true
    · rw [if_pos he] at hw; simp at hw
    · rw [if_neg he] at hw
      rw [List.mem_singleton.mp hw] at hc
      exact hcur c (List.mem_reverse.mp hc)
  | cons x rest ih =>
    intro cur hcur hl w hw c hc
    unfold splitWordsAux at hw
    have hx := hl x (List.mem_cons_self x rest)
    have hrest : ∀ c ∈ rest, isWordOrDash c = true :=
      fun c hc => hl c (List.mem_cons_of_mem _ hc)
    by_cases hs : isSeparatorChar x = true
    · rw [if_pos hs] at hw
      by_cases he : cur.isEmpty = true
      · rw [if_pos he] at hw
        exact ih [] (by simp) hrest w hw c hc
      · rw [if_neg he] at hw
        rcases List.mem_cons.mp hw with h | h
        · rw [h] at hc
          exact hcur c (List.mem_reverse.mp hc)
        · exact ih [] (by simp) hrest w h c hc
    · rw [if_neg hs] at hw
      have hxa : isAsciiAlnum x = true :=
        alnum_of_wordOrDash_not_separator hx (by simpa using hs)
      refine ih (x :: cur) ?_ hrest w hw c hc
      intro c' hc'
      rcases List.mem_cons.mp hc' with h | h
      · exact h ▸ hxa
      · exact hcur c' h

theorem mem_capitalizeWord {w : List Char} (hw : ∀ c ∈ w, isAsciiAlnum c = true) :
    ∀ c ∈ capitalizeWord w, isAsciiAlnum c = true := by
  intro c hc
  cases w with
  | nil => simp [capitalizeWord] at hc
  | cons a as =>
    unfold capitalizeWord at hc
    rcases List.mem_cons.mp hc with h | h
    · exact h ▸ isAsciiAlnum_asciiUpperChar (hw a (List.mem_cons_self a as))
    · rcases List.mem_map.mp h with ⟨c', hc', hcc⟩
      exact hcc ▸ isAsciiAlnum_asciiLowerChar (hw c' (List.mem_cons_of_mem _ hc'))

theorem mem_camelCase (s : String) (hs : ∀ c ∈ s.data, isWordOrDash c = true) :
    ∀ c ∈ (camelCase s).data, isAsciiAlnum c = true := by
  intro c hc
  unfold camelCase at hc
  have hmarked : ∀ c' ∈ markCamelHumps none s.data, isWordOrDash c' = true := by
    intro c' hc'
    rcases mem_markCamelHumps none s.data c' hc' with h | h
    · exact hs c' h
    · rw [h]; decide
  have hwords := mem_splitWordsAux (markCamelHumps none s.data) [] (by simp) hmarked
  cases hsplit : splitWordsAux [] (markCamelHumps none s.data) with
  | nil => rw [hsplit] at hc; simp at hc
  | cons w ws =>
    rw [hsplit] at hc
    dsimp only at hc
    rcases List.mem_append.mp hc with h | h
    · rcases List.mem_map.mp h with ⟨c', hc', hcc⟩
      have := hwords w (hsplit ▸ List.mem_cons_self w ws) c' hc'
      exact hcc ▸ isAsciiAlnum_asciiLowerChar this
    · rcases List.mem_flatten.mp h with ⟨cw, hcw, hcin⟩
      rcases List.mem_map.mp hcw with ⟨w', hw', hww⟩
      have hwall := hwords w' (hsplit ▸ List.mem_cons_of_mem _ hw')
      rw [← hww] at hcin
      exact mem_capitalizeWord hwall c hcin

/-- Counterexample to C9 as stated: for the raw parameter name class,
the sanitizer's output is the underscore-prefixed reserved-word rewrite
_class, which contains the separator character underscore, so the output
is not made of [A-Za-z0-9] alone. -/
theorem c9_counterexample :
    getOperationParameterName "class" = "_class"
    ∧ '_' ∈ (getOperationParameterName "class").data := by
  constructor
  · decide
  · decide

/-- The base name getOperationName derives from a declared operationId:
its final slash-delimited segment when one exists, the identifier
itself otherwise (the claim-side mirror of lines 487-493). -/
def c9BaseName (opId : String) : String :=
  let operationIdSplit := (splitOnChar '/' opId.data).map (fun w => (⟨w⟩ : String))
  if operationIdSplit.length > 1 then (operationIdSplit.getLast?).getD "" else opId

/-- C9 (amended): for every raw input, the parameter-name sanitizer's
output either consists solely of [A-Za-z0-9], or is a reserved word
(itself made of [A-Za-z0-9]) prefixed with one underscore by the
regex rewrite; and an operation name derived from a declared operationId
whose camel-cased sanitized base does not collide with the reserved-word
list consists solely of [A-Za-z0-9]. -/
theorem c9_sanitizer_charset_amended :
    (∀ value : String,
        (∀ c ∈ (getOperationParameterName value).data, isAsciiAlnum c = true)
        ∨ (∃ r, parameterReservedWords.contains r = true
            ∧ getOperationParameterName value = "_" ++ r
            ∧ ∀ c ∈ r.data, isAsciiAlnum c = true))
    ∧ (∀ (url method : String) (operationId : String),
        operationId ≠ "" →
        isReservedWord (camelCase (sanitizeIdentifier (c9BaseName operationId))) = false →
        ∀ c ∈ (getOperationName url method (some operationId)).data, isAsciiAlnum c = true) := by
  constructor
  · intro value
    have hres : ∀ c ∈ (camelCase (sanitizeIdentifier value)).data, isAsciiAlnum c = true :=
      mem_camelCase _ (mem_sanitizeIdentifier value)
    unfold getOperationParameterName
    by_cases hr : parameterReservedWords.contains (camelCase (sanitizeIdentifier value)) = true
    · right
      exact ⟨camelCase (sanitizeIdentifier value), hr, by rw [if_pos hr], hres⟩
    · left
      rw [if_neg hr]
      exact hres
  · intro url method operationId hne hnr c hc
    have hnr' := hnr
    unfold c9BaseName at hnr'
    unfold getOperationName at hc
    rw [if_pos (by simpa [jsTruthyStr] using hne)] at hc
    simp only [Option.getD_some] at hc
    rw [if_neg (by rw [hnr']; exact Bool.false_ne_true)] at hc
    exact mem_camelCase _ (mem_sanitizeIdentifier _) c hc

/-- Witness for C9 (amended): the operation-name conjunct applied at a
concrete identifier, with the conclusion evaluated to a closed check. -/
theorem c9_witness :
    ((getOperationName "/threads" "get" (some "activity/get-thread")).data.all
      isAsciiAlnum) = true :=
  List.all_eq_true.mpr
    (c9_sanitizer_charset_amended.2 "/threads" "get" "activity/get-thread"
      (by decide) (by decide))

end ApiHero
